import Mathlib

/-!
Verification of the InBody body-composition core of the fitconnect-pro
repository: the record store (upsert-by-date), the insight calculator
(getInsights, getMonthlyInsights), the trend classifier (getTrend), the
OCR field extractor (extractNumber, parseInBodyText, extractInBodyData)
and the manual-entry form validation (validateForm, handleSubmit).

Modeling conventions:
- JavaScript numbers are modeled as exact rationals.
- Dates are modeled as epoch milliseconds (the value of
  new Date(dateString).getTime() for the date-only strings stored in the
  date column), so whole-day dates are exact multiples of 86400000.
- The regular-expression engine and the Tesseract recognizer are external
  collaborators; a pattern is abstracted as a function from the input text
  to the optional text of its first capture group, and the recognizer as
  an Except value (error = the engine threw or rejected).
-/

namespace FitConnect

/-! ### Rounding primitives of the JavaScript runtime, over exact rationals -/

/-- Floor of a rational, computed from its normalized fraction. -/
def rfloor (q : ℚ) : Int := q.num / q.den

/-- Ceiling of a rational; models Math.ceil. -/
def rceil (q : ℚ) : Int := -rfloor (-q)

/-- Models Math.round: round half toward positive infinity. -/
def jsMathRound (q : ℚ) : Int := rfloor (q + 1/2)

/-- Models Number(x.toFixed(1)). Per ECMA-262, toFixed separates the sign,
then picks the integer n with n / 10 closest to the absolute value, the
larger n on a tie, so the tie is resolved away from zero. -/
def toFixed1 (x : ℚ) : ℚ :=
  if x < 0 then -((jsMathRound (10 * -x) : Int) : ℚ) / 10
  else ((jsMathRound (10 * x) : Int) : ℚ) / 10

/-- Models Math.round(x * 10) / 10, the rounding used by the dashboard
insights panel (ClientInsightsPanel.tsx, fetchInsights). -/
def panelRound1 (x : ℚ) : ℚ := ((jsMathRound (x * 10) : Int) : ℚ) / 10

/-- Round half away from zero to an integer; this is the rounding rule the
specification names for insight deltas. -/
def roundHalfAwayZ (t : ℚ) : Int :=
  if t < 0 then -(rfloor (-t + 1/2)) else rfloor (t + 1/2)

/-- Round half away from zero to one decimal place (specification wording). -/
def roundAway1 (x : ℚ) : ℚ := ((roundHalfAwayZ (10 * x) : Int) : ℚ) / 10

/-! ### The record type and the insight calculator
(src/hooks/useInBodyRecords.ts). Fields of the database row that the
computations never read (id, created_at) are omitted. -/

structure InBodyRecord where
  date : Int
  weight_kg : ℚ
  skeletal_muscle_kg : ℚ
  body_fat_percentage : ℚ
deriving DecidableEq

structure InBodyInsights where
  weightChange : Option ℚ
  muscleChange : Option ℚ
  fatChange : Option ℚ
  periodDays : Int
deriving DecidableEq

/-- getInsights from useInBodyRecords: guard on fewer than 2 records, then
compare records[0] with records[records.length - 1]; deltas go through
Number((a - b).toFixed(1)) and periodDays through
Math.ceil(msDifference / (1000 * 60 * 60 * 24)). -/
def getInsights : List InBodyRecord → InBodyInsights
  | [] => ⟨none, none, none, 0⟩
  | [_] => ⟨none, none, none, 0⟩
  | oldest :: next :: rest =>
    let latest := (next :: rest).getLastD next
    ⟨some (toFixed1 (latest.weight_kg - oldest.weight_kg)),
     some (toFixed1 (latest.skeletal_muscle_kg - oldest.skeletal_muscle_kg)),
     some (toFixed1 (latest.body_fat_percentage - oldest.body_fat_percentage)),
     rceil (((latest.date - oldest.date : Int) : ℚ) / (1000 * 60 * 60 * 24))⟩

/-- getMonthlyInsights from useInBodyRecords: filter to records dated on or
after now minus 30 days, guard on fewer than 2 filtered records, compare the
first and last filtered record, and always report periodDays = 30. The
clock value now is a parameter (the source reads new Date()). -/
def getMonthlyInsights (now : Int) (records : List InBodyRecord) : InBodyInsights :=
  let thirtyDaysAgo : Int := now - 30 * 24 * 60 * 60 * 1000
  match records.filter (fun r => decide (thirtyDaysAgo ≤ r.date)) with
  | [] => ⟨none, none, none, 30⟩
  | [_] => ⟨none, none, none, 30⟩
  | oldest :: next :: rest =>
    let latest := (next :: rest).getLastD next
    ⟨some (toFixed1 (latest.weight_kg - oldest.weight_kg)),
     some (toFixed1 (latest.skeletal_muscle_kg - oldest.skeletal_muscle_kg)),
     some (toFixed1 (latest.body_fat_percentage - oldest.body_fat_percentage)),
     30⟩

/-- The records the monthly computation keeps: dated on or after the cutoff
now minus 30 days (specification wording for the rolling window). -/
def monthWindow (now : Int) (records : List InBodyRecord) : List InBodyRecord :=
  records.filter (fun r => decide (now - 30 * 24 * 60 * 60 * 1000 ≤ r.date))

/-- The monthly InBody block of fetchInsights in ClientInsightsPanel.tsx:
filter to records dated on or after monthStart, and when at least 2 remain,
set deltas with Math.round((last - first) * 10) / 10 and periodDays with
differenceInDays(now, monthStart); otherwise the initial state
(all null, periodDays 30) is left in place. differenceInDays truncates
toward zero, hence Int.tdiv. -/
def panelMonthlyInsights (now monthStart : Int) (records : List InBodyRecord) : InBodyInsights :=
  match records.filter (fun r => decide (monthStart ≤ r.date)) with
  | [] => ⟨none, none, none, 30⟩
  | [_] => ⟨none, none, none, 30⟩
  | first :: next :: rest =>
    let last := (next :: rest).getLastD next
    ⟨some (panelRound1 (last.weight_kg - first.weight_kg)),
     some (panelRound1 (last.skeletal_muscle_kg - first.skeletal_muscle_kg)),
     some (panelRound1 (last.body_fat_percentage - first.body_fat_percentage)),
     Int.tdiv (now - monthStart) 86400000⟩

/-! ### The trend classifier (ClientInsightsPanel.tsx, getTrend) -/

inductive Trend where
  | up
  | down
  | stable
deriving DecidableEq, Repr

/-- getTrend from ClientInsightsPanel.tsx: null when fewer than 2 records;
otherwise compare records[0] and records[records.length - 1] under the
selected metric with a 0.5 absolute deadband. -/
def getTrend : List InBodyRecord → (InBodyRecord → ℚ) → Option Trend
  | [], _ => none
  | [_], _ => none
  | previous :: next :: rest, key =>
    let latest := (next :: rest).getLastD next
    let diff := key latest - key previous
    if |diff| < 0.5 then some Trend.stable
    else if 0 < diff then some Trend.up
    else some Trend.down

/-! ### The record store (upsert-by-date)
saveRecord in useInBodyRecords.ts issues a persistence upsert with
onConflict user_id,date, and the migration declares
UNIQUE(user_id, date) on inbody_records. -/

structure StoredRecord where
  user_id : String
  date : Int
  weight_kg : ℚ
  skeletal_muscle_kg : ℚ
  body_fat_percentage : ℚ
deriving DecidableEq

/-- Two stored records collide exactly when they agree on the conflict key
user_id,date named by saveRecord and by the UNIQUE(user_id, date)
constraint of the migration. -/
def sameKey (a b : StoredRecord) : Bool :=
  a.user_id == b.user_id && a.date == b.date

/-- Modelled from the spec: the upsert-by-unique-compound-key operation of
the persistence collaborator (section 6), which the repository invokes from
saveRecord with onConflict user_id,date against the UNIQUE(user_id, date)
table of the migration but whose conflict resolution runs inside the hosted
database: insert the record, or fully replace the row that shares its
(ownerId, date) key. -/
def upsertByDate (store : List StoredRecord) (r : StoredRecord) : List StoredRecord :=
  if store.any (fun s => sameKey s r) then
    store.map (fun s => if sameKey s r then r else s)
  else
    store ++ [r]

/-- The table invariant: no two rows share the (user_id, date) key. -/
def UniqueByKey (store : List StoredRecord) : Prop :=
  store.Pairwise (fun a b => sameKey a b = false)

/-! ### The OCR field extractor (src/services/ocr/tesseractProvider.ts) -/

/-- A pattern stands for one regular expression of the WEIGHT_PATTERNS,
MUSCLE_PATTERNS or BODY_FAT_PATTERNS lists: applying it to the text yields
the text of capture group 1 of the first match, if any. The regular
expression engine itself is an external collaborator. -/
def Pattern : Type := String → Option String

/-- Digit scanner used by the parseFloat model: consume leading decimal
digits, returning the accumulated value, the digit count and the rest. -/
def takeDigits (acc cnt : Nat) : List Char → Nat × Nat × List Char
  | [] => (acc, cnt, [])
  | c :: t =>
    if c.isDigit then takeDigits (acc * 10 + (c.toNat - 48)) (cnt + 1) t
    else (acc, cnt, c :: t)

/-- Modelled from the spec of the JavaScript runtime: parseFloat restricted
to the decimal forms this application feeds it (optional sign, integer
digits, optional fractional digits; the longest such prefix is parsed).
Returns none exactly where parseFloat returns NaN, namely when no digit
starts the literal. -/
def parseFloat (s : String) : Option ℚ :=
  let signed : Bool × List Char :=
    match s.data with
    | '-' :: t => (true, t)
    | '+' :: t => (false, t)
    | cs => (false, cs)
  let (ip, icnt, rest) := takeDigits 0 0 signed.2
  let magnitude : Option ℚ :=
    match rest with
    | '.' :: t =>
      let (fp, fcnt, _) := takeDigits 0 0 t
      if icnt = 0 ∧ fcnt = 0 then none
      else some ((ip : ℚ) + (fp : ℚ) / ((10 : ℚ) ^ fcnt))
    | _ => if icnt = 0 then none else some (ip : ℚ)
  if signed.1 then magnitude.map (fun m => -m) else magnitude

/-- extractNumber from tesseractProvider.ts: walk the pattern list in
order; on a match with a nonempty capture group whose text parses to a
number, return that number; otherwise move to the next pattern. -/
def extractNumber (text : String) : List Pattern → Option ℚ
  | [] => none
  | p :: rest =>
    match p text with
    | some captured =>
      if captured = "" then extractNumber text rest
      else
        match parseFloat captured with
        | some value => some value
        | none => extractNumber text rest
    | none => extractNumber text rest

/-- The value a single pattern contributes: its capture parsed as a number,
none when the pattern does not match, captures the empty string, or the
capture fails numeric parsing. -/
def patternValue (text : String) (p : Pattern) : Option ℚ :=
  match p text with
  | some captured => if captured = "" then none else parseFloat captured
  | none => none

structure ParsedInBody where
  weight_kg : Option ℚ
  skeletal_muscle_kg : Option ℚ
  body_fat_percentage : Option ℚ
  confidence : ℚ
deriving DecidableEq

structure InBodyOCRResult where
  weight_kg : Option ℚ
  skeletal_muscle_kg : Option ℚ
  body_fat_percentage : Option ℚ
  confidence : ℚ
  raw_text : String
deriving DecidableEq

/-- parseInBodyText from tesseractProvider.ts, parameterized by the three
pattern lists (the source fixes them to WEIGHT_PATTERNS, MUSCLE_PATTERNS
and BODY_FAT_PATTERNS): extract each field independently and set
confidence to the count of non-null fields over 3. -/
def parseInBodyText (wps mps fps : List Pattern) (text : String) : ParsedInBody :=
  let weight := extractNumber text wps
  let muscle := extractNumber text mps
  let bodyFat := extractNumber text fps
  let foundFields := ([weight, muscle, bodyFat].filter (fun v => v.isSome)).length
  ⟨weight, muscle, bodyFat, (foundFields : ℚ) / 3⟩

/-- extractInBodyData of the tesseract provider: run the recognizer inside
try/catch; on success parse the recognized text and attach it as raw_text;
on an engine exception or rejection resolve with the all-null result,
confidence 0 and empty raw text. Returning a plain InBodyOCRResult (not an
Except) models that the promise resolves rather than rejects. -/
def extractInBodyData (wps mps fps : List Pattern) (recognized : Except String String) :
    InBodyOCRResult :=
  match recognized with
  | Except.ok text =>
    let parsed := parseInBodyText wps mps fps text
    ⟨parsed.weight_kg, parsed.skeletal_muscle_kg, parsed.body_fat_percentage,
     parsed.confidence, text⟩
  | Except.error _ => ⟨none, none, none, 0, ""⟩

/-! ### Manual-entry form validation (InBodyForm: validateForm, handleSubmit) -/

structure FormData where
  date : String
  weight_kg : String
  skeletal_muscle_kg : String
  body_fat_percentage : String

structure ValidationErrors where
  weight_kg : Option String
  skeletal_muscle_kg : Option String
  body_fat_percentage : Option String
deriving DecidableEq

structure InBodyInsert where
  date : String
  weight_kg : ℚ
  skeletal_muscle_kg : ℚ
  body_fat_percentage : ℚ
deriving DecidableEq

/-- validateForm from the InBody form: each field is parsed with parseFloat
and checked against its bound (weight in [20, 300], muscle strictly
positive, body fat in [3, 60]); a failing or unparseable field gets its own
message and passing fields stay unset. -/
def validateForm (d : FormData) : ValidationErrors :=
  let werr : Option String :=
    match parseFloat d.weight_kg with
    | none => some "Weight must be between 20-300 kg"
    | some w => if w < 20 ∨ 300 < w then some "Weight must be between 20-300 kg" else none
  let merr : Option String :=
    match parseFloat d.skeletal_muscle_kg with
    | none => some "Muscle mass must be a positive number"
    | some m => if m ≤ 0 then some "Muscle mass must be a positive number" else none
  let ferr : Option String :=
    match parseFloat d.body_fat_percentage with
    | none => some "Body fat must be between 3-60%"
    | some f => if f < 3 ∨ 60 < f then some "Body fat must be between 3-60%" else none
  ⟨werr, merr, ferr⟩

/-- Object.keys(validationErrors).length > 0 of the source: at least one
field message is present (messages are only ever assigned, never set to
undefined). -/
def hasErrors (e : ValidationErrors) : Bool :=
  e.weight_kg.isSome || e.skeletal_muscle_kg.isSome || e.body_fat_percentage.isSome

/-- handleSubmit from the InBody form: run validateForm; if any error is
present, record the errors and return without saving; otherwise build the
record from the parsed fields and invoke onSave with it. The Except value
separates the two exits: error = save never invoked, ok = the record passed
to onSave. When validation passes, every parseFloat below is some, so the
getD defaults are never read. -/
def handleSubmit (d : FormData) : Except ValidationErrors InBodyInsert :=
  let validationErrors := validateForm d
  if hasErrors validationErrors then Except.error validationErrors
  else
    Except.ok
      ⟨d.date, (parseFloat d.weight_kg).getD 0, (parseFloat d.skeletal_muscle_kg).getD 0,
       (parseFloat d.body_fat_percentage).getD 0⟩

/-- Spec-side predicate: the weight field is non-numeric or out of [20, 300]. -/
def weightOutOfBounds (d : FormData) : Bool :=
  match parseFloat d.weight_kg with
  | none => true
  | some w => decide (w < 20) || decide (300 < w)

/-- Spec-side predicate: the muscle field is non-numeric or not strictly positive. -/
def muscleOutOfBounds (d : FormData) : Bool :=
  match parseFloat d.skeletal_muscle_kg with
  | none => true
  | some m => decide (m ≤ 0)

/-- Spec-side predicate: the body-fat field is non-numeric or out of [3, 60]. -/
def fatOutOfBounds (d : FormData) : Bool :=
  match parseFloat d.body_fat_percentage with
  | none => true
  | some f => decide (f < 3) || decide (60 < f)

/-! ### Concrete inputs used by scenario conjuncts and witnesses.
Epoch milliseconds: 2024-01-01T00:00Z is 1704067200000; March dates follow
at whole-day offsets (60 days to 2024-03-01). -/

def ms20240301 : Int := 1709251200000

def ms20240305 : Int := 1709596800000

def ms20240308 : Int := 1709856000000

def ms20240310 : Int := 1710028800000

def ms20240313 : Int := 1710288000000

def ms20240315 : Int := 1710460800000

/-- Record dated 2024-03-01 with weight 82.0 (scenario input). -/
def exOld : InBodyRecord := ⟨ms20240301, 82, 34, 20⟩

/-- Record dated 2024-03-15 with weight 80.0 (scenario input). -/
def exNew : InBodyRecord := ⟨ms20240315, 80, 33, 21⟩

def exRangeList : List InBodyRecord := [exOld, exNew]

/-- Two records 5 days apart, both inside a 30-day window ending 2024-03-15. -/
def exShort1 : InBodyRecord := ⟨ms20240308, 80.6, 34, 20⟩

def exShort2 : InBodyRecord := ⟨ms20240313, 79.4, 34.5, 19.5⟩

def exShortList : List InBodyRecord := [exShort1, exShort2]

/-- A record dated far before any 30-day window used here. -/
def exAncient : InBodyRecord := ⟨0, 90, 30, 25⟩

/-- Panel counterexample records: weights 80.5 then 80.25, an exact
negative half tie after scaling by 10. -/
def pFirst : InBodyRecord := ⟨ms20240305, 80.5, 34, 20⟩

def pSecond : InBodyRecord := ⟨ms20240310, 80.25, 34, 20⟩

/-- Two-record list with the given weights, for the trend scenarios. -/
def trendRec (w : ℚ) : InBodyRecord := ⟨0, w, 0, 0⟩

/-- Stored record for owner alice dated epoch day 19783 (2024-03-01). -/
def sAlice : StoredRecord := ⟨"alice", 19783, 82, 34, 20⟩

/-- Same owner and date as sAlice, weight 81.5 (replace-by-date scenario). -/
def sAliceNew : StoredRecord := ⟨"alice", 19783, 81.5, 34, 20⟩

/-- A pattern whose capture fails numeric parsing. -/
def pCaptureAbc : Pattern := fun _ => some "abc"

/-- A pattern whose capture parses to 32.5. -/
def pCaptureNum : Pattern := fun _ => some "32.5"

/-- A form whose weight field is below the documented bound. -/
def badWeightForm : FormData := ⟨"2024-03-01", "10", "34", "20"⟩

/-! ### Bridging lemmas between the computable rounding primitives and the
Mathlib floor and ceiling -/

theorem rfloor_eq_floor (q : ℚ) : rfloor q = ⌊q⌋ := Rat.floor_def.symm

theorem rceil_eq_ceil (q : ℚ) : rceil q = ⌈q⌉ := by
  rw [rceil, rfloor_eq_floor, Int.floor_neg, neg_neg]

theorem jsMathRound_eq (q : ℚ) : jsMathRound q = ⌊q + 1/2⌋ := by
  rw [jsMathRound, rfloor_eq_floor]

/-! ### Claims C5, C6, C8: the OCR extractor -/

/-- C5: when the recognition engine throws or rejects, extractInBodyData
resolves normally with all three numeric fields null, confidence 0 and an
empty raw text, for every pattern configuration and every error. -/
theorem C5_extraction_failure (wps mps fps : List Pattern) (err : String) :
    extractInBodyData wps mps fps (Except.error err) = ⟨none, none, none, 0, ""⟩ := rfl

theorem extractNumber_eq_findSome (text : String) (ps : List Pattern) :
    extractNumber text ps = ps.findSome? (patternValue text) := by
  induction ps with
  | nil => rfl
  | cons p rest ih =>
    show extractNumber text (p :: rest) = _
    rw [List.findSome?_cons]
    unfold extractNumber patternValue
    cases hp : p text with
    | none => simpa using ih
    | some captured =>
      by_cases hc : captured = ""
      · simp only [hp, if_pos hc]
        simpa using ih
      · simp only [hp, if_neg hc]
        cases hv : parseFloat captured with
        | none => simpa using ih
        | some v => rfl

/-- C6: the field extractor tries the pattern list in order and returns the
value of the first pattern whose capture parses to a number (stated as the
findSome? of the per-pattern values, which combines and averages nothing);
a matching pattern whose capture fails numeric parsing is skipped rather
than raised as an error; a head pattern whose capture parses ends the
search with that value; and the result is null exactly when no pattern
yields a parseable number. -/
theorem C6_first_match_wins :
    (∀ text ps, extractNumber text ps = ps.findSome? (patternValue text)) ∧
    (∀ (text : String) (p : Pattern) (ps : List Pattern) (captured : String),
      p text = some captured → parseFloat captured = none →
      extractNumber text (p :: ps) = extractNumber text ps) ∧
    (∀ (text : String) (p : Pattern) (ps : List Pattern) (captured : String) (v : ℚ),
      p text = some captured → captured ≠ "" → parseFloat captured = some v →
      extractNumber text (p :: ps) = some v) ∧
    (∀ text ps, extractNumber text ps = none ↔ ∀ p ∈ ps, patternValue text p = none) := by
  refine ⟨extractNumber_eq_findSome, ?_, ?_, ?_⟩
  · intro text p ps captured hp hv
    by_cases hc : captured = ""
    · simp only [extractNumber]
      simp [hp, hc]
    · simp only [extractNumber]
      simp [hp, hc, hv]
  · intro text p ps captured v hp hc hv
    simp only [extractNumber]
    simp [hp, hc, hv]
  · intro text ps
    rw [extractNumber_eq_findSome, List.findSome?_eq_none_iff]

/-- Closed instance of C6: a pattern that matches but whose capture text
abc fails numeric parsing is passed over. -/
theorem C6_witness :
    extractNumber "report" [pCaptureAbc, pCaptureNum] = extractNumber "report" [pCaptureNum] :=
  C6_first_match_wins.2.1 "report" pCaptureAbc [pCaptureNum] "abc" rfl (by decide)

/-- C8: the extraction confidence always equals the count of non-null
fields over 3, and is therefore one of 0, 1/3, 2/3, 1. -/
theorem C8_confidence (wps mps fps : List Pattern) (text : String) :
    ((parseInBodyText wps mps fps text).confidence =
      ((if (parseInBodyText wps mps fps text).weight_kg.isSome then (1 : ℚ) else 0) +
       (if (parseInBodyText wps mps fps text).skeletal_muscle_kg.isSome then (1 : ℚ) else 0) +
       (if (parseInBodyText wps mps fps text).body_fat_percentage.isSome then (1 : ℚ) else 0)) / 3) ∧
    ((parseInBodyText wps mps fps text).confidence = 0 ∨
     (parseInBodyText wps mps fps text).confidence = 1/3 ∨
     (parseInBodyText wps mps fps text).confidence = 2/3 ∨
     (parseInBodyText wps mps fps text).confidence = 1) := by
  unfold parseInBodyText
  cases extractNumber text wps <;> cases extractNumber text mps <;>
    cases extractNumber text fps <;> norm_num

/-! ### Claim C9: form validation gates persistence -/

theorem validateForm_weight (d : FormData) :
    (validateForm d).weight_kg =
      match parseFloat d.weight_kg with
      | none => some "Weight must be between 20-300 kg"
      | some w => if w < 20 ∨ 300 < w then some "Weight must be between 20-300 kg" else none := rfl

theorem validateForm_muscle (d : FormData) :
    (validateForm d).skeletal_muscle_kg =
      match parseFloat d.skeletal_muscle_kg with
      | none => some "Muscle mass must be a positive number"
      | some m => if m ≤ 0 then some "Muscle mass must be a positive number" else none := rfl

theorem validateForm_fat (d : FormData) :
    (validateForm d).body_fat_percentage =
      match parseFloat d.body_fat_percentage with
      | none => some "Body fat must be between 3-60%"
      | some f => if f < 3 ∨ 60 < f then some "Body fat must be between 3-60%" else none := rfl

theorem weight_error_of_out (d : FormData) (hb : weightOutOfBounds d = true) :
    (validateForm d).weight_kg.isSome = true := by
  rw [validateForm_weight]
  rw [weightOutOfBounds] at hb
  cases hp : parseFloat d.weight_kg with
  | none => simp
  | some w =>
    rw [hp] at hb
    simp only [Bool.or_eq_true, decide_eq_true_eq] at hb
    simp [hb]

theorem muscle_error_of_out (d : FormData) (hb : muscleOutOfBounds d = true) :
    (validateForm d).skeletal_muscle_kg.isSome = true := by
  rw [validateForm_muscle]
  rw [muscleOutOfBounds] at hb
  cases hp : parseFloat d.skeletal_muscle_kg with
  | none => simp
  | some m =>
    rw [hp] at hb
    simp only [decide_eq_true_eq] at hb
    simp [hb]

theorem fat_error_of_out (d : FormData) (hb : fatOutOfBounds d = true) :
    (validateForm d).body_fat_percentage.isSome = true := by
  rw [validateForm_fat]
  rw [fatOutOfBounds] at hb
  cases hp : parseFloat d.body_fat_percentage with
  | none => simp
  | some f =>
    rw [hp] at hb
    simp only [Bool.or_eq_true, decide_eq_true_eq] at hb
    simp [hb]

/-- C9: when any field is non-numeric or outside its documented bound,
handleSubmit exits through validateForm without ever invoking the save
operation (the Except.error exit), and each offending field carries its own
error message; validation failures never reach persistence. -/
theorem C9_validation_blocks_save (d : FormData)
    (h : weightOutOfBounds d = true ∨ muscleOutOfBounds d = true ∨ fatOutOfBounds d = true) :
    handleSubmit d = Except.error (validateForm d) ∧
    (weightOutOfBounds d = true → (validateForm d).weight_kg.isSome = true) ∧
    (muscleOutOfBounds d = true → (validateForm d).skeletal_muscle_kg.isSome = true) ∧
    (fatOutOfBounds d = true → (validateForm d).body_fat_percentage.isSome = true) := by
  have herrs : hasErrors (validateForm d) = true := by
    rw [hasErrors]
    rcases h with hb | hb | hb
    · rw [weight_error_of_out d hb]
      simp
    · rw [muscle_error_of_out d hb]
      simp
    · rw [fat_error_of_out d hb]
      simp
  refine ⟨?_, weight_error_of_out d, muscle_error_of_out d, fat_error_of_out d⟩
  simp only [handleSubmit]
  rw [if_pos herrs]

/-- Closed instance of C9 at a form whose weight 10 is below the bound. -/
theorem C9_witness :
    handleSubmit badWeightForm = Except.error (validateForm badWeightForm) ∧
    (validateForm badWeightForm).weight_kg.isSome = true := by
  have h := C9_validation_blocks_save badWeightForm (Or.inl (by decide))
  exact ⟨h.1, h.2.1 (by decide)⟩

/-! ### Claim C4: the trend classifier deadband -/

/-- C4: for any record list with at least 2 records, writing o and l for
the metric value of the first and last record, getTrend classifies stable
exactly when the absolute change is under 0.5, up when the change is at
least 0.5 with the new value larger, and down when it is at least 0.5 with
the new value smaller; and the three scenario pairs from 70 to 70.4, 70.6
and 69.4 classify stable, up and down. -/
theorem C4_trend_classifier :
    (∀ (rs : List InBodyRecord) (key : InBodyRecord → ℚ) (o l : ℚ),
      rs.head?.map key = some o → rs.getLast?.map key = some l → 2 ≤ rs.length →
      ((getTrend rs key = some Trend.stable ↔ |l - o| < 0.5) ∧
       ((0.5 : ℚ) ≤ |l - o| → o < l → getTrend rs key = some Trend.up) ∧
       ((0.5 : ℚ) ≤ |l - o| → l < o → getTrend rs key = some Trend.down))) ∧
    getTrend [trendRec 70, trendRec 70.4] (fun r => r.weight_kg) = some Trend.stable ∧
    getTrend [trendRec 70, trendRec 70.6] (fun r => r.weight_kg) = some Trend.up ∧
    getTrend [trendRec 70, trendRec 69.4] (fun r => r.weight_kg) = some Trend.down := by
  refine ⟨?_, ?_, ?_, ?_⟩
  · intro rs key o l ho hl hlen
    rcases rs with _ | ⟨a, _ | ⟨b, t⟩⟩
    · simp at ho
    · simp at hlen
    · simp only [List.head?_cons, Option.map_some] at ho
      obtain ⟨lr, hlr, hkl⟩ := Option.map_eq_some'.mp hl
      rw [List.getLast?_cons_cons] at hlr
      have hlatest : (b :: t).getLastD b = lr := by
        rw [List.getLastD_eq_getLast?, hlr]
        rfl
      have ho' : key a = o := Option.some.inj ho
      simp only [getTrend, hlatest, hkl, ho']
      refine ⟨?_, ?_, ?_⟩
      · by_cases habs : |l - o| < 0.5
        · simp [habs]
        · by_cases hpos : 0 < l - o <;> simp [habs, hpos]
      · intro hge hlt
        rw [if_neg (not_lt.mpr hge), if_pos (sub_pos.mpr hlt)]
      · intro hge hgt
        rw [if_neg (not_lt.mpr hge), if_neg (not_lt.mpr (le_of_lt (sub_neg.mpr hgt)))]
  · have h1 : |(70.4 : ℚ) - 70| < 0.5 := by
      rw [show (70.4 : ℚ) - 70 = 0.4 by norm_num, abs_of_nonneg (by norm_num)]
      norm_num
    simp [getTrend, trendRec, List.getLastD, h1]
  · have h1 : ¬ |(70.6 : ℚ) - 70| < 0.5 := by
      rw [show (70.6 : ℚ) - 70 = 0.6 by norm_num, abs_of_nonneg (by norm_num)]
      norm_num
    have h2 : (0 : ℚ) < 70.6 - 70 := by norm_num
    simp [getTrend, trendRec, List.getLastD, h1, h2]
  · have h1 : ¬ |(69.4 : ℚ) - 70| < 0.5 := by
      rw [show (69.4 : ℚ) - 70 = -0.6 by norm_num, abs_of_nonpos (by norm_num)]
      norm_num
    have h2 : ¬ (0 : ℚ) < 69.4 - 70 := by norm_num
    simp [getTrend, trendRec, List.getLastD, h1, h2]

/-- Closed instance of C4: the 70 to 70.6 pair is at least the deadband
with the newer value larger, so the classifier reports up. -/
theorem C4_witness :
    getTrend [trendRec 70, trendRec 70.6] (fun r => r.weight_kg) = some Trend.up := by
  refine (C4_trend_classifier.1 [trendRec 70, trendRec 70.6] (fun r => r.weight_kg)
    70 70.6 rfl rfl (by decide)).2.1 ?_ (by norm_num)
  rw [show (70.6 : ℚ) - 70 = 0.6 by norm_num, abs_of_nonneg (by norm_num)]
  norm_num

/-! ### Claim C7: one-decimal rounding of insight deltas -/

theorem toFixed1_eq_roundAway1 (x : ℚ) : toFixed1 x = roundAway1 x := by
  unfold toFixed1 roundAway1 roundHalfAwayZ jsMathRound
  by_cases hx : x < 0
  · have h10 : 10 * x < 0 := by nlinarith
    rw [if_pos hx, if_pos h10, show 10 * -x = -(10 * x) by ring]
    push_cast
    ring
  · have h10 : ¬ 10 * x < 0 := by nlinarith [not_lt.mp hx]
    rw [if_neg hx, if_neg h10]

theorem floor_shift_of_no_tie (t : ℚ) (h : ∀ k : Int, t + 1/2 ≠ (k : ℚ)) :
    ⌊t + 1/2⌋ = -⌊-t + 1/2⌋ := by
  have hne : ((⌊t + 1/2⌋ : Int) : ℚ) ≠ t + 1/2 := fun he => h ⌊t + 1/2⌋ he.symm
  have hlt : ((⌊t + 1/2⌋ : Int) : ℚ) < t + 1/2 := lt_of_le_of_ne (Int.floor_le _) hne
  have hceil : ⌈t + 1/2⌉ = ⌊t + 1/2⌋ + 1 := by
    refine le_antisymm (Int.ceil_le_floor_add_one _) ?_
    have h2 : ((⌊t + 1/2⌋ : Int) : ℚ) < ((⌈t + 1/2⌉ : Int) : ℚ) :=
      lt_of_lt_of_le hlt (Int.le_ceil _)
    have h3 : ⌊t + 1/2⌋ < ⌈t + 1/2⌉ := by exact_mod_cast h2
    omega
  rw [show -t + 1/2 = -(t + 1/2) + 1 by ring, Int.floor_add_one, Int.floor_neg, hceil]
  ring

theorem panelRound1_eq_away_of_no_tie (x : ℚ) (h : (10 * x - 1/2).den ≠ 1) :
    panelRound1 x = roundAway1 x := by
  have hno : ∀ k : Int, 10 * x + 1/2 ≠ (k : ℚ) := by
    intro k hk
    apply h
    have h2 : 10 * x - 1/2 = ((k - 1 : Int) : ℚ) := by
      push_cast
      linarith
    rw [h2, Rat.den_intCast]
  unfold panelRound1 roundAway1 roundHalfAwayZ jsMathRound
  simp only [rfloor_eq_floor]
  by_cases h10 : 10 * x < 0
  · rw [if_pos h10, show x * 10 = 10 * x by ring, floor_shift_of_no_tie (10 * x) hno]
  · rw [if_neg h10, show x * 10 = 10 * x by ring]

/-- C7 counterexample: in the dashboard panel path, the weight delta from
80.5 to 80.25 (an exact negative half after scaling) is rounded with
Math.round to -0.2, while round-half-away-from-zero to one decimal gives
-0.3, so the panel path does not round half away from zero. -/
theorem C7_counterexample :
    (panelMonthlyInsights ms20240315 ms20240301 [pFirst, pSecond]).weightChange =
      some (-1/5) ∧
    roundAway1 ((80.25 : ℚ) - 80.5) = -3/10 ∧ ((-1/5 : ℚ)) ≠ -3/10 := by
  have hstep : (panelMonthlyInsights ms20240315 ms20240301 [pFirst, pSecond]).weightChange =
      some (panelRound1 ((80.25 : ℚ) - 80.5)) := rfl
  refine ⟨?_, ?_, by norm_num⟩
  · rw [hstep]
    norm_num [panelRound1, jsMathRound, rfloor]
  · norm_num [roundAway1, roundHalfAwayZ, rfloor]

/-- C7 amended: the record-store hook path Number((a - b).toFixed(1))
rounds half away from zero on the underlying value, always; the dashboard
panel path Math.round(d * 10) / 10 agrees with round-half-away-from-zero
whenever the scaled delta is not an exact half-integer (in particular
whenever 10 d - 1/2 is not an integer), and the scenario delta from 80.26
to 78.98 rounds to -1.3 in both paths. -/
theorem C7_amended :
    (∀ x : ℚ, toFixed1 x = roundAway1 x) ∧
    (∀ x : ℚ, (10 * x - 1/2).den ≠ 1 → panelRound1 x = roundAway1 x) ∧
    toFixed1 ((78.98 : ℚ) - 80.26) = -13/10 ∧
    panelRound1 ((78.98 : ℚ) - 80.26) = -13/10 := by
  refine ⟨toFixed1_eq_roundAway1, panelRound1_eq_away_of_no_tie, ?_, ?_⟩
  · norm_num [toFixed1, jsMathRound, rfloor]
  · norm_num [panelRound1, jsMathRound, rfloor]

/-- Closed instance of C7 amended at the delta -1.28, whose scaled value is
not a half-integer, so the panel rounding agrees with half-away-from-zero. -/
theorem C7_witness : panelRound1 (-32/25) = roundAway1 (-32/25) :=
  C7_amended.2.1 (-32/25) (by norm_num)

/-! ### Claims C1, C2, C10: the insight calculator -/

theorem head_min_of_sorted (rs : List InBodyRecord) (o : InBodyRecord)
    (hsort : rs.Pairwise (fun a b => a.date ≤ b.date)) (ho : rs.head? = some o) :
    ∀ r ∈ rs, o.date ≤ r.date := by
  cases rs with
  | nil => cases ho
  | cons a t =>
    have hao : a = o := by simpa using ho
    subst hao
    rw [List.pairwise_cons] at hsort
    intro r hr
    rcases List.mem_cons.mp hr with rfl | hrt
    · exact le_refl _
    · exact hsort.1 r hrt

theorem getLast_max_of_sorted (rs : List InBodyRecord) (l : InBodyRecord)
    (hsort : rs.Pairwise (fun a b => a.date ≤ b.date)) (hl : rs.getLast? = some l) :
    ∀ r ∈ rs, r.date ≤ l.date := by
  induction rs with
  | nil => cases hl
  | cons a t ih =>
    cases t with
    | nil =>
      have hal : a = l := by simpa using hl
      subst hal
      intro r hr
      have : r = a := by simpa using hr
      subst this
      exact le_refl _
    | cons b t2 =>
      rw [List.getLast?_cons_cons] at hl
      rw [List.pairwise_cons] at hsort
      intro r hr
      rcases List.mem_cons.mp hr with rfl | hrt
      · exact hsort.1 l (List.mem_of_mem_getLast? hl)
      · exact ih hsort.2 hl r hrt

/-- C1: over a date-ascending record list, getInsights with fewer than 2
records returns all-null changes and periodDays 0; with at least 2 records
the head is the oldest and the last the newest record, each change is the
newest minus the oldest value rounded to one decimal, and periodDays is the
ceiling of the millisecond difference over 86400000; the two-record
scenario dated 2024-03-01 (82 kg) and 2024-03-15 (80 kg) yields
weightChange -2.0 and periodDays 14. -/
theorem C1_range_insight (rs : List InBodyRecord)
    (hsort : rs.Pairwise (fun a b => a.date ≤ b.date)) :
    (rs.length < 2 → getInsights rs = ⟨none, none, none, 0⟩) ∧
    (∀ o l, rs.head? = some o → rs.getLast? = some l → 2 ≤ rs.length →
      (∀ r ∈ rs, o.date ≤ r.date ∧ r.date ≤ l.date) ∧
      getInsights rs =
        ⟨some (toFixed1 (l.weight_kg - o.weight_kg)),
         some (toFixed1 (l.skeletal_muscle_kg - o.skeletal_muscle_kg)),
         some (toFixed1 (l.body_fat_percentage - o.body_fat_percentage)),
         rceil (((l.date - o.date : Int) : ℚ) / 86400000)⟩) ∧
    getInsights exRangeList = ⟨some (-2), some (-1), some 1, 14⟩ := by
  refine ⟨?_, ?_, ?_⟩
  · intro hlen
    rcases rs with _ | ⟨a, _ | ⟨b, t⟩⟩
    · rfl
    · rfl
    · simp only [List.length_cons] at hlen
      omega
  · intro o l ho hl hlen
    rcases rs with _ | ⟨a, _ | ⟨b, t⟩⟩
    · simp at ho
    · simp at hlen
    · have hao : a = o := by simpa using ho
      have hl2 : (b :: t).getLast? = some l := by
        have hcopy := hl
        rw [List.getLast?_cons_cons] at hcopy
        exact hcopy
      have hlatest : (b :: t).getLastD b = l := by
        rw [List.getLastD_eq_getLast?, hl2]
        rfl
      constructor
      · intro r hr
        exact ⟨head_min_of_sorted _ o hsort ho r hr,
               getLast_max_of_sorted _ l hsort hl r hr⟩
      · simp only [getInsights, hlatest, hao]
        norm_num
  · have hstep : getInsights exRangeList =
        ⟨some (toFixed1 ((80 : ℚ) - 82)), some (toFixed1 ((33 : ℚ) - 34)),
         some (toFixed1 ((21 : ℚ) - 20)),
         rceil (((1710460800000 - 1709251200000 : Int) : ℚ) / (1000 * 60 * 60 * 24))⟩ := rfl
    rw [hstep]
    norm_num [toFixed1, jsMathRound, rfloor, rceil]

/-- Closed instance of C1 at the two-record scenario list. -/
theorem C1_witness : getInsights exRangeList = ⟨some (-2), some (-1), some 1, 14⟩ :=
  (C1_range_insight exRangeList (by decide)).2.2

/-- C2: getMonthlyInsights considers exactly the records dated on or after
now minus 30 days: a record strictly before the cutoff never affects the
result; with fewer than 2 records inside the window the result is all-null
with periodDays 30; with at least 2 the changes compare the first and last
record inside the window, rounded to one decimal, with periodDays 30. -/
theorem C2_monthly_window (now : Int) (rs : List InBodyRecord) :
    (∀ r : InBodyRecord, r.date < now - 30 * 24 * 60 * 60 * 1000 →
      getMonthlyInsights now (r :: rs) = getMonthlyInsights now rs) ∧
    ((monthWindow now rs).length < 2 → getMonthlyInsights now rs = ⟨none, none, none, 30⟩) ∧
    (∀ o l, (monthWindow now rs).head? = some o → (monthWindow now rs).getLast? = some l →
      2 ≤ (monthWindow now rs).length →
      getMonthlyInsights now rs =
        ⟨some (toFixed1 (l.weight_kg - o.weight_kg)),
         some (toFixed1 (l.skeletal_muscle_kg - o.skeletal_muscle_kg)),
         some (toFixed1 (l.body_fat_percentage - o.body_fat_percentage)), 30⟩) := by
  refine ⟨?_, ?_, ?_⟩
  · intro r hr
    have hpr : decide (now - 30 * 24 * 60 * 60 * 1000 ≤ r.date) = false :=
      decide_eq_false (not_le.mpr hr)
    simp only [getMonthlyInsights, List.filter_cons, hpr]
    simp
  · intro hlen
    simp only [monthWindow] at hlen
    simp only [getMonthlyInsights]
    rcases hf : rs.filter (fun r => decide (now - 30 * 24 * 60 * 60 * 1000 ≤ r.date)) with
      _ | ⟨x, _ | ⟨y, t⟩⟩
    · rw [hf]
    · rw [hf]
    · rw [hf] at hlen
      simp only [List.length_cons] at hlen
      omega
  · intro o l ho hl hlen
    simp only [monthWindow] at ho hl hlen
    simp only [getMonthlyInsights]
    rcases hf : rs.filter (fun r => decide (now - 30 * 24 * 60 * 60 * 1000 ≤ r.date)) with
      _ | ⟨x, _ | ⟨y, t⟩⟩
    · rw [hf] at ho
      simp at ho
    · rw [hf] at hlen
      simp only [List.length_cons, List.length_nil] at hlen
      omega
    · rw [hf] at ho hl
      rw [hf]
      have hxo : x = o := by simpa using ho
      rw [List.getLast?_cons_cons] at hl
      have hlatest : (y :: t).getLastD y = l := by
        rw [List.getLastD_eq_getLast?, hl]
        rfl
      simp only [hlatest, hxo]

/-- Closed instance of C2: a record dated before the 30-day cutoff does not
change the monthly insight. -/
theorem C2_witness :
    getMonthlyInsights ms20240315 (exAncient :: exShortList) =
      getMonthlyInsights ms20240315 exShortList :=
  (C2_monthly_window ms20240315 exShortList).1 exAncient (by decide)

/-- C10: getMonthlyInsights reports periodDays 30 unconditionally, for
every clock value and record list; in particular the two in-window records
dated 2024-03-08 and 2024-03-13 span 5 days, yet the returned periodDays is
30 while their deltas are computed. -/
theorem C10_period_days_constant :
    (∀ (now : Int) (rs : List InBodyRecord), (getMonthlyInsights now rs).periodDays = 30) ∧
    getMonthlyInsights ms20240315 exShortList =
      ⟨some (-6/5), some (1/2), some (-1/2), 30⟩ ∧
    rceil (((exShort2.date - exShort1.date : Int) : ℚ) / 86400000) = 5 := by
  refine ⟨?_, ?_, ?_⟩
  · intro now rs
    simp only [getMonthlyInsights]
    rcases hf : rs.filter (fun r => decide (now - 30 * 24 * 60 * 60 * 1000 ≤ r.date)) with
      _ | ⟨x, _ | ⟨y, t⟩⟩
    · rw [hf]
    · rw [hf]
    · rw [hf]
  · have hstep : getMonthlyInsights ms20240315 exShortList =
        ⟨some (toFixed1 ((79.4 : ℚ) - 80.6)), some (toFixed1 ((34.5 : ℚ) - 34)),
         some (toFixed1 ((19.5 : ℚ) - 20)), 30⟩ := rfl
    rw [hstep]
    norm_num [toFixed1, jsMathRound, rfloor]
  · norm_num [rceil, rfloor, exShort1, exShort2, ms20240308, ms20240313]

/-! ### Claim C3: the record store upsert -/

theorem sameKey_eq_true (a b : StoredRecord) :
    sameKey a b = true ↔ a.user_id = b.user_id ∧ a.date = b.date := by
  simp [sameKey]

theorem sameKey_self (a : StoredRecord) : sameKey a a = true := by
  simp [sameKey]

theorem sameKey_of_both (a b r : StoredRecord) (ha : sameKey a r = true)
    (hb : sameKey b r = true) : sameKey a b = true := by
  rcases (sameKey_eq_true a r).mp ha with ⟨h1, h2⟩
  rcases (sameKey_eq_true b r).mp hb with ⟨h3, h4⟩
  exact (sameKey_eq_true a b).mpr ⟨h1.trans h3.symm, h2.trans h4.symm⟩

theorem upsertByDate_idem (s : List StoredRecord) (r : StoredRecord) :
    upsertByDate (upsertByDate s r) r = upsertByDate s r := by
  cases hb : s.any (fun x => sameKey x r) with
  | true =>
    have h1 : upsertByDate s r = s.map (fun x => if sameKey x r then r else x) := by
      simp only [upsertByDate, hb, if_true]
    have h2 : (s.map (fun x => if sameKey x r then r else x)).any
        (fun x => sameKey x r) = true := by
      rcases List.any_eq_true.mp hb with ⟨a, ha, hk⟩
      refine List.any_eq_true.mpr ⟨r, List.mem_map.mpr ⟨a, ha, ?_⟩, sameKey_self r⟩
      simp [hk]
    rw [h1]
    simp only [upsertByDate, h2, if_true]
    rw [List.map_map]
    refine List.map_congr_left ?_
    intro a _
    by_cases hk : sameKey a r = true
    · simp [Function.comp, hk, sameKey_self]
    · simp [Function.comp, hk]
  | false =>
    have hall := List.any_eq_false.mp hb
    have h1 : upsertByDate s r = s ++ [r] := by
      simp [upsertByDate, hb]
    have h2 : (s ++ [r]).any (fun x => sameKey x r) = true :=
      List.any_eq_true.mpr ⟨r, by simp, sameKey_self r⟩
    rw [h1]
    simp only [upsertByDate, h2, if_true]
    rw [List.map_append]
    congr 1
    · refine (List.map_congr_left ?_).trans (List.map_id _)
      intro a ha
      have := hall a ha
      simp only [id]
      cases hx : sameKey a r with
      | false => simp
      | true => exact absurd hx this
    · simp [sameKey_self]

theorem filter_map_replace (r : StoredRecord) :
    ∀ s : List StoredRecord, UniqueByKey s → s.any (fun x => sameKey x r) = true →
    (s.map (fun x => if sameKey x r then r else x)).filter (fun x => sameKey x r) = [r] := by
  intro s
  induction s with
  | nil =>
    intro _ h
    simp at h
  | cons a t ih =>
    intro hu hany
    simp only [UniqueByKey, List.pairwise_cons] at hu
    cases hk : sameKey a r with
    | true =>
      simp only [List.map_cons, hk, if_true]
      rw [List.filter_cons, if_pos (sameKey_self r)]
      suffices hnil :
          (t.map (fun x => if sameKey x r then r else x)).filter (fun x => sameKey x r) = [] by
        rw [hnil]
      apply List.filter_eq_nil_iff.mpr
      intro c hc
      rcases List.mem_map.mp hc with ⟨b, hbmem, hfb⟩
      have hbr : sameKey b r = false := by
        cases hbk : sameKey b r with
        | false => rfl
        | true =>
          exfalso
          have hab : sameKey a b = true := sameKey_of_both a b r hk hbk
          have hfalse := hu.1 b hbmem
          rw [hab] at hfalse
          cases hfalse
      rw [← hfb]
      simp [hbr]
    | false =>
      have hat : t.any (fun x => sameKey x r) = true := by
        rcases List.any_eq_true.mp hany with ⟨b, hbmem, hbk⟩
        rcases List.mem_cons.mp hbmem with rfl | hbt
        · rw [hk] at hbk
          cases hbk
        · exact List.any_eq_true.mpr ⟨b, hbt, hbk⟩
      simp only [List.map_cons, hk, Bool.false_eq_true, if_false]
      rw [List.filter_cons, if_neg (by simp [hk])]
      exact ih hu.2 hat

theorem filter_upsertByDate (s : List StoredRecord) (r : StoredRecord) (hu : UniqueByKey s) :
    (upsertByDate s r).filter (fun x => sameKey x r) = [r] := by
  cases hb : s.any (fun x => sameKey x r) with
  | true =>
    have h1 : upsertByDate s r = s.map (fun x => if sameKey x r then r else x) := by
      simp only [upsertByDate, hb, if_true]
    rw [h1]
    exact filter_map_replace r s hu hb
  | false =>
    have h1 : upsertByDate s r = s ++ [r] := by
      simp [upsertByDate, hb]
    rw [h1, List.filter_append]
    have h2 : s.filter (fun x => sameKey x r) = [] := by
      apply List.filter_eq_nil_iff.mpr
      intro a ha
      exact List.any_eq_false.mp hb a ha
    rw [h2]
    simp [sameKey_self]

theorem upsertByDate_unique (s : List StoredRecord) (r : StoredRecord) (hu : UniqueByKey s) :
    UniqueByKey (upsertByDate s r) := by
  cases hb : s.any (fun x => sameKey x r) with
  | true =>
    have h1 : upsertByDate s r = s.map (fun x => if sameKey x r then r else x) := by
      simp only [upsertByDate, hb, if_true]
    rw [h1]
    refine List.Pairwise.map _ ?_ hu
    intro a b hab
    cases hka : sameKey a r with
    | true =>
      cases hkb : sameKey b r with
      | true =>
        exfalso
        have hx := sameKey_of_both a b r hka hkb
        rw [hx] at hab
        cases hab
      | false =>
        simp only [hka, hkb, if_true, Bool.false_eq_true, if_false]
        cases hrb : sameKey r b with
        | false => rfl
        | true =>
          exfalso
          have h1x := (sameKey_eq_true a r).mp hka
          have h2x := (sameKey_eq_true r b).mp hrb
          have hx : sameKey a b = true :=
            (sameKey_eq_true a b).mpr ⟨h1x.1.trans h2x.1, h1x.2.trans h2x.2⟩
          rw [hx] at hab
          cases hab
    | false =>
      cases hkb : sameKey b r with
      | true =>
        simp only [hka, hkb, if_true, Bool.false_eq_true, if_false]
      | false =>
        simp only [hka, hkb, Bool.false_eq_true, if_false]
        exact hab
  | false =>
    have h1 : upsertByDate s r = s ++ [r] := by
      simp [upsertByDate, hb]
    rw [h1]
    simp only [UniqueByKey]
    rw [List.pairwise_append]
    refine ⟨hu, by simp, ?_⟩
    intro a ha b hbmem
    have hbr : b = r := by simpa using hbmem
    subst hbr
    cases hx : sameKey a b with
    | false => rfl
    | true => exact absurd hx (List.any_eq_false.mp hb a ha)

/-- C3: the upsert-by-date operation is idempotent (a second identical call
changes nothing); on a store satisfying the uniqueness invariant it leaves
exactly one record for the upserted key, carrying the upserted values;
saving again for the same owner and date with different values again leaves
exactly one record for that date, carrying the new values; and the
operation preserves the invariant that no two records of a store share an
(owner, date) key. -/
theorem C3_upsert_semantics :
    (∀ (s : List StoredRecord) (r : StoredRecord),
      upsertByDate (upsertByDate s r) r = upsertByDate s r) ∧
    (∀ (s : List StoredRecord) (r : StoredRecord), UniqueByKey s →
      (upsertByDate s r).filter (fun x => sameKey x r) = [r]) ∧
    (∀ (s : List StoredRecord) (r r2 : StoredRecord), UniqueByKey s →
      r.user_id = r2.user_id → r.date = r2.date →
      (upsertByDate (upsertByDate s r) r2).filter (fun x => sameKey x r2) = [r2]) ∧
    (∀ (s : List StoredRecord) (r : StoredRecord), UniqueByKey s →
      UniqueByKey (upsertByDate s r)) := by
  refine ⟨upsertByDate_idem, filter_upsertByDate, ?_, upsertByDate_unique⟩
  intro s r r2 hu _ _
  exact filter_upsertByDate _ r2 (upsertByDate_unique s r hu)

/-- Closed instance of C3: the replace-by-date scenario; saving weight 82
then 81.5 for the same owner and date leaves exactly one record for that
date, carrying 81.5. -/
theorem C3_witness :
    (upsertByDate (upsertByDate [] sAlice) sAliceNew).filter (fun x => sameKey x sAliceNew) =
      [sAliceNew] :=
  C3_upsert_semantics.2.2.1 [] sAlice sAliceNew List.Pairwise.nil rfl rfl

end FitConnect
